import Mathlib

/-!
Verification development for the csagents email-triage core.

The definitions below are shallow embeddings, translated directly from the
repository's Python sources:
  * `business_tools.py` — order registry and the `intercept_order_shipping`
    state transition,
  * `email_manager.py`  — field extraction, category/intent classification,
    and product-reference extraction over raw email text,
  * `log_manager.py`    — the bounded-history log queue with subscriber
    callbacks.

Raw email text is modelled as `List Char`; the Python regular expressions
used by the source are embedded as explicit character-list scanners that
reproduce the leftmost-match and greedy/backtracking behaviour of `re.search`
and `re.findall` on the pattern fragments actually used by the code.
-/

namespace CsAgents

/-! ## Python string primitives -/

/-- ASCII lower-casing of one character, as `str.lower` acts on the ASCII
range (all keywords and labels in the source are ASCII or Chinese; Chinese
characters are unaffected by lower-casing). -/
def pyLowerChar (c : Char) : Char :=
  if 'A' ≤ c ∧ c ≤ 'Z' then Char.ofNat (c.toNat + 32) else c

/-- `content.lower()` over the character list. -/
def pyLower (l : List Char) : List Char := l.map pyLowerChar

/-- Python `\s` (ASCII range): space, tab, newline, carriage return,
form feed, vertical tab. -/
def isPySpace (c : Char) : Bool :=
  c = ' ' || c = '\t' || c = '\n' || c = '\r' || c = '\x0c' || c = '\x0b'

/-- ASCII decimal digit, the `\d` class for the inputs in scope. -/
def isPyDigit (c : Char) : Bool := '0' ≤ c ∧ c ≤ '9'

/-- Python `\w` word character (ASCII range): letter, digit or underscore. -/
def isWordChar (c : Char) : Bool :=
  ('a' ≤ c ∧ c ≤ 'z') || ('A' ≤ c ∧ c ≤ 'Z') || isPyDigit c || c = '_'

/-- Word-character test for an optional character; out-of-string counts as
non-word, as in the `\b` boundary rule. -/
def isWordOpt : Option Char → Bool
  | none => false
  | some c => isWordChar c

/-- `str.strip()`: drop leading and trailing whitespace. -/
def pyStrip (l : List Char) : List Char :=
  ((l.dropWhile isPySpace).reverse.dropWhile isPySpace).reverse

/-- Case-insensitive prefix test used by `re.IGNORECASE` literal matching:
returns the remainder after the literal when it matches. -/
def stripLiteralCI : List Char → List Char → Option (List Char)
  | [], rest => some rest
  | _ :: _, [] => none
  | p :: ps, c :: cs =>
      if pyLowerChar p = pyLowerChar c then stripLiteralCI ps cs else none

/-- Substring containment (`needle in haystack` on Python strings). -/
def containsTok (needle : List Char) : List Char → Bool
  | [] => needle.isEmpty
  | c :: cs => needle.isPrefixOf (c :: cs) || containsTok needle cs

/-! ## Generic leftmost regex search

`re.search` tries the matcher at every position from the left and returns
the first success.  `scanFirst m l` applies matcher `m` to every suffix of
`l`, leftmost first. -/

def scanFirst (m : List Char → Option α) : List Char → Option α
  | [] => m []
  | c :: cs =>
      match m (c :: cs) with
      | some r => some r
      | none => scanFirst m cs

/-! ## Labeled-line field extraction (`_parse_email_content`)

The source uses `re.search(r'Label[：:]\s*(.+)', content, re.IGNORECASE)` for
the subject (colon required) and `re.search(r'Label[：:]?\s*(.+)', ...)` for
name/phone/company/country (colon optional).  `\s*(.+)` is greedy with
backtracking: `\s*` prefers the longest whitespace run but gives characters
back when `(.+)` (one or more non-newline characters) would otherwise fail. -/

/-- `(.+)`: greedy run of non-newline characters, at least one. -/
def dotPlus (s : List Char) : Option (List Char) :=
  let t := s.takeWhile (fun c => c ≠ '\n')
  if t.isEmpty then none else some t

/-- `\s*(.+)` with the backtracking described above; returns the capture. -/
def wsStarDotPlus : List Char → Option (List Char)
  | [] => none
  | c :: cs =>
      if isPySpace c then
        match wsStarDotPlus cs with
        | some r => some r
        | none => dotPlus (c :: cs)
      else dotPlus (c :: cs)

/-- Matcher for `Label[：:]<?>\s*(.+)` at the current position.
`colonOptional = false` embeds `[：:]` (subject), `true` embeds `[：:]?`
(name/phone/company/country); the optional colon is greedy but backtracks. -/
def matchLabel (label : List Char) (colonOptional : Bool) (s : List Char) :
    Option (List Char) :=
  match stripLiteralCI label s with
  | none => none
  | some rest =>
      match rest with
      | [] => if colonOptional then wsStarDotPlus [] else none
      | c :: cs =>
          if c = ':' ∨ c = '：' then
            match wsStarDotPlus cs with
            | some r => some r
            | none => if colonOptional then wsStarDotPlus rest else none
          else if colonOptional then wsStarDotPlus rest else none

/-- One labeled field: leftmost match of the label pattern, capture stripped,
as `match.group(1).strip()` in the source. -/
def fieldExtract (label : List Char) (colonOptional : Bool)
    (content : List Char) : Option (List Char) :=
  (scanFirst (matchLabel label colonOptional) content).map pyStrip

/-! ## Email-address extraction

The source finds all matches of
`\b[A-Za-z0-9._%+-]+@[A-Za-z0-9.-]+\.[A-Z|a-z]{2,}\b` and keeps the first.
The scanner below reproduces the greedy domain part with backtracking over
the position of the final dot and over the length of the top-level part. -/

def isLocalChar (c : Char) : Bool :=
  ('a' ≤ c ∧ c ≤ 'z') || ('A' ≤ c ∧ c ≤ 'Z') || isPyDigit c ||
  c = '.' || c = '_' || c = '%' || c = '+' || c = '-'

def isDomainChar (c : Char) : Bool :=
  ('a' ≤ c ∧ c ≤ 'z') || ('A' ≤ c ∧ c ≤ 'Z') || isPyDigit c || c = '.' || c = '-'

/-- The class `[A-Z|a-z]`: letters and the literal pipe. -/
def isTldChar (c : Char) : Bool :=
  ('a' ≤ c ∧ c ≤ 'z') || ('A' ≤ c ∧ c ≤ 'Z') || c = '|'

/-- Top-level part: greedy `[A-Z|a-z]{2,}` followed by `\b`.  `t` is the
maximal run of tld characters, `next` the first character after that run;
`m` counts down from `t.length` looking for the longest length ≥ 2 whose
following character yields a word boundary. -/
def tryTld (t : List Char) (next : Option Char) : Nat → Option (List Char)
  | 0 => none
  | m + 1 =>
      if m + 1 < 2 then none
      else
        let afterM : Option Char := if m + 1 < t.length then t.get? (m + 1) else next
        let lastC : Option Char := t.get? m
        if (isWordOpt lastC ≠ isWordOpt afterM) ∧ m + 1 ≤ t.length then
          some (t.take (m + 1))
        else tryTld t next m

/-- Domain-and-tld: `d` is the maximal run of `[A-Za-z0-9.-]` after the `@`,
`after` the whole text following that run.  `k` counts down looking for the
rightmost dot position such that `[A-Z|a-z]{2,}\b` matches after it; the
TLD candidate run may extend past the domain run into `after`, since `|`
belongs to the TLD class but not to the domain class. -/
def tryDomainSplit (d : List Char) (after : List Char) :
    Nat → Option (List Char × List Char)
  | 0 => none
  | k + 1 =>
      if d.get? (k + 1) = some '.' ∧ 1 ≤ k + 1 then
        let s := d.drop (k + 2) ++ after
        let t := s.takeWhile isTldChar
        match tryTld t (s.get? t.length) t.length with
        | some tld => some (d.take (k + 1), tld)
        | none => tryDomainSplit d after k
      else tryDomainSplit d after k

/-- Attempt the whole email pattern at the current position, given the
previous character (for the leading `\b`). -/
def emailMatchAt (prev : Option Char) (l : List Char) : Option (List Char) :=
  if isWordOpt prev = isWordOpt (l.head?) then none
  else
    let loc := l.takeWhile isLocalChar
    if loc.isEmpty then none
    else
      match l.drop loc.length with
      | '@' :: rest =>
          let d := rest.takeWhile isDomainChar
          match tryDomainSplit d (rest.drop d.length) d.length with
          | some (dom, tld) =>
              some (loc ++ '@' :: (dom ++ '.' :: tld))
          | none => none
      | _ => none

/-- Scan for the leftmost email match, tracking the previous character. -/
def findFirstEmailAux (prev : Option Char) : List Char → Option (List Char)
  | [] => none
  | c :: cs =>
      match emailMatchAt prev (c :: cs) with
      | some m => some m
      | none => findFirstEmailAux (some c) cs

/-- Leftmost email match (`re.findall(...)[0]` when nonempty). -/
def findFirstEmail (content : List Char) : Option (List Char) :=
  findFirstEmailAux none content

/-! ## Category and intent classification -/

/-- The keyword sets of `_classify_email_type`, in branch order. -/
def price_keywords : List String := ["price", "cost", "quote", "价格", "报价"]

def order_keywords : List String := ["order", "purchase", "订单", "购买"]

def change_keywords : List String := ["cancel", "modify", "change", "取消", "修改"]

def stock_keywords : List String := ["stock", "inventory", "available", "库存", "现货"]

def ship_keywords : List String := ["shipping", "delivery", "logistics", "物流", "发货"]

/-- `keyword in content_lower` lifted over a keyword set
(`any(keyword in content_lower for keyword in [...])`). -/
def hasKeyword (kws : List String) (cl : List Char) : Bool :=
  kws.any (fun k => containsTok k.toList cl)

/-- `_classify_email_type`: ordered keyword sets, first matching set wins. -/
def classify_email_type (content : List Char) : String :=
  let cl := pyLower content
  if hasKeyword price_keywords cl then "价格询问"
  else if hasKeyword order_keywords cl then "订单相关"
  else if hasKeyword change_keywords cl then "订单变更"
  else if hasKeyword stock_keywords cl then "库存询问"
  else if hasKeyword ship_keywords cl then "物流询问"
  else "一般咨询"

/-- The keyword sets of `_extract_intent`, in branch order. -/
def addr_intent_keywords : List String :=
  ["change address", "modify address", "修改地址", "更改地址"]

def product_intent_keywords : List String :=
  ["add product", "remove product", "增加产品", "删除产品"]

def cancel_intent_keywords : List String := ["cancel order", "取消订单"]

def merge_intent_keywords : List String :=
  ["merge order", "combine order", "合并订单"]

def price_intent_keywords : List String :=
  ["check price", "price inquiry", "询价", "价格查询"]

def stock_intent_keywords : List String := ["check stock", "inventory", "库存查询"]

def track_intent_keywords : List String :=
  ["track order", "shipping status", "物流查询"]

/-- `_extract_intent`: finer ordered keyword scan. -/
def extract_intent (content : List Char) : String :=
  let cl := pyLower content
  if hasKeyword addr_intent_keywords cl then "修改发货地址"
  else if hasKeyword product_intent_keywords cl then "修改产品"
  else if hasKeyword cancel_intent_keywords cl then "取消订单"
  else if hasKeyword merge_intent_keywords cl then "合并订单"
  else if hasKeyword price_intent_keywords cl then "价格查询"
  else if hasKeyword stock_intent_keywords cl then "库存查询"
  else if hasKeyword track_intent_keywords cl then "物流查询"
  else "一般咨询"

/-- All category keywords, for the "no recognizable keyword" hypothesis. -/
def all_category_keywords : List String :=
  price_keywords ++ order_keywords ++ change_keywords ++ stock_keywords ++
    ship_keywords

/-- All intent keywords, for the "no recognizable keyword" hypothesis. -/
def all_intent_keywords : List String :=
  addr_intent_keywords ++ product_intent_keywords ++ cancel_intent_keywords ++
    merge_intent_keywords ++ price_intent_keywords ++ stock_intent_keywords ++
    track_intent_keywords

/-! ## Product-reference extraction (`_extract_products`)

Codes match `\b\d{2}-\d{2}-\d{4}\b` (`re.findall`, leftmost, non-overlapping,
duplicates and order preserved).  For each code the source then searches the
whole text for `{code}[,，]\s*(\d+[Kk]?pcs?)` (case-insensitive) and takes
the first capture, defaulting to `"1pcs"`. -/

/-- Match `\d{2}-\d{2}-\d{4}` with `\b` on both sides at the current
position; `prev` is the character before the position. -/
def codeMatchAt (prev : Option Char) : List Char → Option (List Char)
  | a :: b :: '-' :: c :: d :: '-' :: e :: f :: g :: h :: rest =>
      if (!isWordOpt prev) && isPyDigit a && isPyDigit b && isPyDigit c &&
         isPyDigit d && isPyDigit e && isPyDigit f && isPyDigit g &&
         isPyDigit h && (!isWordOpt rest.head?) then
        some [a, b, '-', c, d, '-', e, f, g, h]
      else none
  | _ => none

/-- `re.findall` over the code pattern: leftmost, non-overlapping.  The
fuel argument (initialised to the text length, an upper bound on the number
of scan steps) makes the recursion structural; every step consumes at least
one character, so the fuel never runs out before the text does. -/
def findCodesAux : Nat → Option Char → List Char → List (List Char)
  | 0, _, _ => []
  | _ + 1, _, [] => []
  | fuel + 1, prev, x :: xs =>
      match codeMatchAt prev (x :: xs) with
      | some m => m :: findCodesAux fuel (m.getLastD x) (xs.drop 9)
      | none => findCodesAux fuel (some x) xs

def findCodes (content : List Char) : List (List Char) :=
  findCodesAux content.length none content

/-- The capture `(\d+[Kk]?pcs?)` (case-insensitive): one or more digits,
an optional `K`, the literal `pc`, an optional trailing `s`.  Greedy and,
on these disjoint character classes, deterministic. -/
def quantityToken (s : List Char) : Option (List Char) :=
  let ds := s.takeWhile isPyDigit
  if ds.isEmpty then none
  else
    let rest := s.drop ds.length
    let (kPart, rest') :=
      match rest with
      | k :: more => if k = 'K' ∨ k = 'k' then ([k], more) else ([], rest)
      | [] => ([], rest)
    match rest' with
    | p :: c :: more =>
        if (p = 'p' ∨ p = 'P') ∧ (c = 'c' ∨ c = 'C') then
          match more with
          | s' :: _ =>
              if s' = 's' ∨ s' = 'S' then some (ds ++ kPart ++ [p, c, s'])
              else some (ds ++ kPart ++ [p, c])
          | [] => some (ds ++ kPart ++ [p, c])
        else none
    | _ => none

/-- Matcher for `{code}[,，]\s*(\d+[Kk]?pcs?)` at the current position,
returning the capture group. -/
def quantityMatchAt (code : List Char) (s : List Char) : Option (List Char) :=
  match stripLiteralCI code s with
  | none => none
  | some rest =>
      match rest with
      | c :: cs =>
          if c = ',' ∨ c = '，' then quantityToken (cs.dropWhile isPySpace)
          else none
      | [] => none

/-- Quantity attached to one code: first match anywhere in the text,
else the default `"1pcs"`. -/
def quantityFor (code : List Char) (content : List Char) : List Char :=
  match scanFirst (quantityMatchAt code) content with
  | some q => q
  | none => "1pcs".toList

/-- A product reference: either `{code, quantity}` from a code match or
`{name, quantity}` from the `Product Name:` fallback line. -/
inductive ProductRef where
  | byCode (code : String) (quantity : String)
  | byName (name : String) (quantity : String)
deriving DecidableEq, Repr

/-- `_extract_products`: code scan with per-code quantity lookup; when no
code is found, fall back to a single `Product Name[：:]?` labeled line. -/
def extract_products (content : List Char) : List ProductRef :=
  let codes := findCodes content
  let products := codes.map (fun c =>
    ProductRef.byCode ⟨c⟩ ⟨quantityFor c content⟩)
  if products.isEmpty then
    match fieldExtract "Product Name".toList true content with
    | some n => [ProductRef.byName ⟨n⟩ "1pcs"]
    | none => []
  else products

/-! ## `_parse_email_content` and `get_email_by_index` -/

/-- The keys the source may place into `parsed_info` (besides `send_time`,
which never appears in `_parse_email_content`). -/
structure ParsedInfo where
  subject : Option String
  sender : Option String
  sender_name : Option String
  phone : Option String
  company : Option String
  country : Option String
  email_type : String
  intent : String
  products : List ProductRef
deriving DecidableEq, Repr

/-- `_parse_email_content`: subject requires the colon, the other labeled
fields take an optional colon; sender is the first email-address match. -/
def parse_email_content (content : List Char) : ParsedInfo where
  subject := (fieldExtract "Subject".toList false content).map (⟨·⟩)
  sender := (findFirstEmail content).map (⟨·⟩)
  sender_name := (fieldExtract "Name".toList true content).map (⟨·⟩)
  phone := (fieldExtract "Phone".toList true content).map (⟨·⟩)
  company := (fieldExtract "Company".toList true content).map (⟨·⟩)
  country := (fieldExtract "Country".toList true content).map (⟨·⟩)
  email_type := classify_email_type content
  intent := extract_intent content
  products := extract_products content

/-- `get_email_by_index`: Python bounds check, `None` outside the range.
The index is a Python integer, hence `Int`. -/
def get_email_by_index (emails : List α) (index : Int) : Option α :=
  if 0 ≤ index ∧ index < (emails.length : Int) then emails.get? index.toNat
  else none

/-! ## Order registry and `intercept_order_shipping` (`business_tools.py`)

`MOCK_ORDERS` is a dict keyed by order id; the `Order` structure carries the
fields the source reads or writes (`order_id`, `customer_email`, `status`,
`shipping_status`) together with the two fields the interception branch
assigns (`intercept_reason`, `intercept_time`, absent as `none` initially). -/

structure Order where
  order_id : String
  customer_email : String
  status : String
  shipping_status : String
  intercept_reason : Option String
  intercept_time : Option String
deriving DecidableEq, Repr

/-- Dict lookup `order_id in MOCK_ORDERS` / `MOCK_ORDERS[order_id]`. -/
def findOrder : List (String × Order) → String → Option Order
  | [], _ => none
  | (k, v) :: rest, oid => if k = oid then some v else findOrder rest oid

/-- In-place update `MOCK_ORDERS[order_id][...] = ...` of the entry. -/
def updateOrder : List (String × Order) → String → (Order → Order) →
    List (String × Order)
  | [], _, _ => []
  | (k, v) :: rest, oid, f =>
      if k = oid then (k, f v) :: updateOrder rest oid f
      else (k, v) :: updateOrder rest oid f

/-- The guard list of `intercept_order_shipping`. -/
def shippedStatuses : List String := ["Shipped", "In Transit", "Delivered"]

/-- Payload of the `data` field of the returned dict: the already-intercepted
branch returns `{status, reason}`, the executing branch returns
`{order_id, status, reason, intercept_time}`. -/
inductive InterceptData where
  | alreadyIntercepted (status : String) (reason : String)
  | intercepted (order_id : String) (status : String) (reason : String)
      (intercept_time : String)
deriving DecidableEq, Repr

/-- The `{"success": ..., "data": ..., "message": ...}` result dict. -/
structure InterceptResult where
  success : Bool
  data : Option InterceptData
  message : String
deriving DecidableEq, Repr

/-- `intercept_order_shipping`, with `datetime.now()` supplied as the `now`
argument.  Returns the registry after the call together with the result. -/
def intercept_order_shipping (reg : List (String × Order)) (oid : String)
    (reason : String) (now : String) :
    List (String × Order) × InterceptResult :=
  match findOrder reg oid with
  | none =>
      (reg, ⟨false, none, "Order " ++ oid ++ " does not exist"⟩)
  | some o =>
      if o.shipping_status ∈ shippedStatuses then
        (reg, ⟨false, none,
          "Order " ++ oid ++ " has already been shipped and cannot be intercepted"⟩)
      else if o.shipping_status = "Intercepted" then
        (reg, ⟨true, some (.alreadyIntercepted "Intercepted" reason),
          "Order " ++ oid ++ " is already intercepted"⟩)
      else
        let reg' := updateOrder reg oid (fun x =>
          { x with shipping_status := "Intercepted",
                   intercept_reason := some reason,
                   intercept_time := some now })
        (reg', ⟨true, some (.intercepted oid "Intercepted" reason now),
          "Order " ++ oid ++ " has been successfully intercepted"⟩)

/-- Run a sequence of intercept calls `(order_id, reason, now)`. -/
def run_intercepts (reg : List (String × Order))
    (calls : List (String × String × String)) : List (String × Order) :=
  calls.foldl (fun r c => (intercept_order_shipping r c.1 c.2.1 c.2.2).1) reg

/-- The initial `MOCK_ORDERS` (interception-relevant fields). -/
def MOCK_ORDERS : List (String × Order) :=
  [("LC123456", ⟨"LC123456", "customer1@example.com", "Confirmed",
      "Pending Shipment", none, none⟩),
   ("LC789012", ⟨"LC789012", "customer2@example.com", "Shipped",
      "In Transit", none, none⟩),
   ("LC345678", ⟨"LC345678", "customer3@example.com", "Processing",
      "Preparing", none, none⟩)]

/-! ## Aliasing model for registry reads (`query_orders_by_customer`,
`query_order_by_id`)

Python dicts are heap objects, so whether a read hands out the stored dict
or a copy is observable.  The heap is a list of order records addressed by
index; the registry maps order ids to addresses.  `query_orders_by_customer`
appends the stored dict objects themselves (`customer_orders.append(order)`),
so it returns the stored addresses; `query_order_by_id` calls
`MOCK_ORDERS[order_id].copy()`, allocating a fresh top-level record. -/

structure OrderRec where
  order_id : String
  customer_email : String
  shipping_status : String
deriving DecidableEq, Repr

instance : Inhabited OrderRec := ⟨⟨"", "", ""⟩⟩

def readOrderRef (h : List OrderRec) (a : Nat) : OrderRec := h.getD a default

def writeOrderRef (h : List OrderRec) (a : Nat) (o : OrderRec) :
    List OrderRec := h.set a o

def lookupAddr : List (String × Nat) → String → Option Nat
  | [], _ => none
  | (k, v) :: rest, oid => if k = oid then some v else lookupAddr rest oid

/-- `query_orders_by_customer`: iterate the registry in insertion order and
collect the stored records themselves (their addresses). -/
def query_orders_by_customer (h : List OrderRec) (reg : List (String × Nat))
    (email : String) : List Nat :=
  (reg.filter (fun kv => (readOrderRef h kv.2).customer_email = email)).map
    (fun kv => kv.2)

/-- `query_order_by_id`: `.copy()` allocates a fresh record at the end of
the heap; returns the new heap and the address of the copy. -/
def query_order_by_id (h : List OrderRec) (reg : List (String × Nat))
    (oid : String) : List OrderRec × Option Nat :=
  match lookupAddr reg oid with
  | some a => (h ++ [readOrderRef h a], some h.length)
  | none => (h, none)

def initOrderHeap : List OrderRec :=
  [⟨"LC123456", "customer1@example.com", "Pending Shipment"⟩,
   ⟨"LC789012", "customer2@example.com", "In Transit"⟩,
   ⟨"LC345678", "customer3@example.com", "Preparing"⟩]

def orderAddrs : List (String × Nat) :=
  [("LC123456", 0), ("LC789012", 1), ("LC345678", 2)]

/-! ## Log queue manager (`log_manager.py`)

Subscriber callbacks may raise; a raising callback is modelled as returning
`Except.error msg`.  The `add_log` loop catches the exception, prints a
console line, and continues with the next callback. -/

inductive LogLevel where
  | INFO | DEBUG | WARNING | ERROR | TOOL | THINKING | RESULT
deriving DecidableEq, Repr

structure LogEvent where
  level : LogLevel
  message : String
  timestamp : String
  metadata : Option (List (String × String))
deriving DecidableEq, Repr

structure LogState where
  log_queue : List LogEvent
  log_history : List LogEvent
  max_logs : Nat
  callbacks : List (LogEvent → Except String Unit)

/-- Python's negative slice `l[-m:]`: the last `m` elements when `m ≥ 1`,
but `l[-0:]` is `l[0:]`, the whole list. -/
def pySliceLast (m : Nat) (l : List LogEvent) : List LogEvent :=
  if m = 0 then l else l.drop (l.length - m)

/-- History truncation: `if len > max_logs: history = history[-max_logs:]`.
Because of the `[-0:]` slice semantics, a bus with `max_logs = 0` never
evicts anything. -/
def truncateHistory (m : Nat) (l : List LogEvent) : List LogEvent :=
  if l.length > m then pySliceLast m l else l

/-- The callback loop of `add_log`: every callback is invoked with the
event; a raising callback is caught and a console line is printed.  Returns
the per-callback outcomes and the printed lines. -/
def run_callbacks (e : LogEvent) :
    List (LogEvent → Except String Unit) →
    List (Except String Unit) × List String
  | [] => ([], [])
  | cb :: rest =>
      match cb e with
      | .ok u =>
          (Except.ok u :: (run_callbacks e rest).1, (run_callbacks e rest).2)
      | .error msg =>
          (Except.error msg :: (run_callbacks e rest).1,
           ("日志回调错误: " ++ msg) :: (run_callbacks e rest).2)

/-- `add_log`: build the event, enqueue it, append it to the bounded
history, then run the callbacks.  Returns the new state, the per-callback
outcomes and the console output. -/
def add_log (s : LogState) (level : LogLevel) (message : String)
    (timestamp : String) (metadata : Option (List (String × String))) :
    LogState × List (Except String Unit) × List String :=
  let e : LogEvent := ⟨level, message, timestamp, metadata⟩
  let hist := truncateHistory s.max_logs (s.log_history ++ [e])
  let (outcomes, printed) := run_callbacks e s.callbacks
  ({ s with log_queue := s.log_queue ++ [e], log_history := hist },
   outcomes, printed)

/-- `get_logs`: `list(self.log_history)` — a copy of the history. -/
def get_logs (s : LogState) : List LogEvent := s.log_history

/-- One publish input: level, message, timestamp, metadata. -/
abbrev LogInput := LogLevel × String × String × Option (List (String × String))

def mkEvent (i : LogInput) : LogEvent := ⟨i.1, i.2.1, i.2.2.1, i.2.2.2⟩

/-- Sequential publishes from one thread. -/
def run_add_logs (s : LogState) (inputs : List LogInput) : LogState :=
  inputs.foldl (fun st i => (add_log st i.1 i.2.1 i.2.2.1 i.2.2.2).1) s

/-! ## Registry lemmas -/

theorem findOrder_updateOrder (reg : List (String × Order)) (k : String)
    (f : Order → Order) (j : String) :
    findOrder (updateOrder reg k f) j =
      if j = k then (findOrder reg j).map f else findOrder reg j := by
  induction reg with
  | nil => simp [findOrder, updateOrder]
  | cons kv rest ih =>
      obtain ⟨k', v⟩ := kv
      by_cases hk : k' = k
      · by_cases hj : k' = j
        · subst hk
          subst hj
          simp [findOrder, updateOrder]
        · have hjk : ¬(j = k) := fun h => hj (hk.trans h.symm)
          subst hk
          simp [findOrder, updateOrder, hj, fun h : k' = j => hj h, hjk, ih]
      · by_cases hj : k' = j
        · subst hj
          simp [findOrder, updateOrder, hk]
        · simp [findOrder, updateOrder, hk, hj, ih]

theorem mem_shippedStatuses_ne_intercepted :
    ∀ s ∈ shippedStatuses, s ≠ "Intercepted" := by decide

/-- One intercept call, on any order id, leaves an already-shipped order's
entry untouched. -/
theorem intercept_preserves_shipped (reg : List (String × Order))
    (oid : String) (o : Order) (oid₂ r t : String)
    (hfind : findOrder reg oid = some o)
    (hs : o.shipping_status ∈ shippedStatuses) :
    findOrder (intercept_order_shipping reg oid₂ r t).1 oid = some o := by
  unfold intercept_order_shipping
  cases h2 : findOrder reg oid₂ with
  | none => simpa using hfind
  | some o2 =>
      by_cases hss : o2.shipping_status ∈ shippedStatuses
      · simpa [hss] using hfind
      · by_cases hi : o2.shipping_status = "Intercepted"
        · simpa [hss, hi] using hfind
        · have hne : oid ≠ oid₂ := by
            intro he
            subst he
            rw [hfind] at h2
            cases h2
            exact hss hs
          simp [hss, hi, findOrder_updateOrder, hne, hfind]

theorem run_intercepts_preserves_shipped (calls : List (String × String × String))
    (reg : List (String × Order)) (oid : String) (o : Order)
    (hfind : findOrder reg oid = some o)
    (hs : o.shipping_status ∈ shippedStatuses) :
    findOrder (run_intercepts reg calls) oid = some o := by
  induction calls generalizing reg with
  | nil => exact hfind
  | cons c rest ih =>
      exact ih _ (intercept_preserves_shipped reg oid o c.1 c.2.1 c.2.2 hfind hs)

/-- C1: `intercept` on an order whose shipping_status is `Shipped`,
`In Transit` or `Delivered` fails with the already-shipped error and leaves
the registry unchanged, and after any further sequence of intercept calls
the order's entry — in particular its shipping_status — is still exactly
what it was, so it is never `Intercepted`. -/
theorem C1_intercept_already_shipped (reg : List (String × Order))
    (oid reason now : String) (o : Order)
    (calls : List (String × String × String))
    (hfind : findOrder reg oid = some o)
    (hs : o.shipping_status ∈ shippedStatuses) :
    intercept_order_shipping reg oid reason now =
      (reg, ⟨false, none,
        "Order " ++ oid ++ " has already been shipped and cannot be intercepted"⟩)
    ∧ findOrder (run_intercepts reg calls) oid = some o
    ∧ (findOrder (run_intercepts reg calls) oid).map Order.shipping_status ≠
        some "Intercepted" := by
  refine ⟨?_, run_intercepts_preserves_shipped calls reg oid o hfind hs, ?_⟩
  · unfold intercept_order_shipping
    rw [hfind]
    simp [hs]
  · rw [run_intercepts_preserves_shipped calls reg oid o hfind hs]
    simpa using mem_shippedStatuses_ne_intercepted o.shipping_status hs

/-- Witness for C1 at the mock data: order LC789012 is `In Transit`; the
intercept call fails and two further calls leave it unchanged. -/
theorem C1_witness :
    findOrder MOCK_ORDERS "LC789012" =
      some ⟨"LC789012", "customer2@example.com", "Shipped", "In Transit", none, none⟩
    ∧ (Order.mk "LC789012" "customer2@example.com" "Shipped" "In Transit"
        none none).shipping_status ∈ shippedStatuses
    ∧ (intercept_order_shipping MOCK_ORDERS "LC789012" "customer request" "2024-07-03 10:00:00" =
        (MOCK_ORDERS, ⟨false, none,
          "Order LC789012 has already been shipped and cannot be intercepted"⟩)
      ∧ findOrder (run_intercepts MOCK_ORDERS
          [("LC789012", "again", "t1"), ("LC123456", "other", "t2")]) "LC789012" =
          some ⟨"LC789012", "customer2@example.com", "Shipped", "In Transit", none, none⟩
      ∧ (findOrder (run_intercepts MOCK_ORDERS
          [("LC789012", "again", "t1"), ("LC123456", "other", "t2")]) "LC789012").map
            Order.shipping_status ≠ some "Intercepted") :=
  ⟨by decide, by decide,
    C1_intercept_already_shipped MOCK_ORDERS "LC789012" "customer request"
      "2024-07-03 10:00:00" _ _ (by decide) (by decide)⟩

/-- The already-intercepted branch of `intercept_order_shipping`. -/
theorem intercept_already_intercepted (reg : List (String × Order))
    (oid r t : String) (o : Order)
    (hfind : findOrder reg oid = some o)
    (hi : o.shipping_status = "Intercepted") :
    intercept_order_shipping reg oid r t =
      (reg, ⟨true, some (.alreadyIntercepted "Intercepted" r),
        "Order " ++ oid ++ " is already intercepted"⟩) := by
  unfold intercept_order_shipping
  rw [hfind]
  simp [hi, show ("Intercepted" : String) ∉ shippedStatuses by decide]

/-- The executing branch of `intercept_order_shipping`. -/
theorem intercept_executes (reg : List (String × Order))
    (oid r now : String) (o : Order)
    (hfind : findOrder reg oid = some o)
    (hns : o.shipping_status ∉ shippedStatuses)
    (hni : o.shipping_status ≠ "Intercepted") :
    intercept_order_shipping reg oid r now =
      (updateOrder reg oid (fun x =>
        { x with shipping_status := "Intercepted",
                 intercept_reason := some r, intercept_time := some now }),
       ⟨true, some (.intercepted oid "Intercepted" r now),
        "Order " ++ oid ++ " has been successfully intercepted"⟩) := by
  unfold intercept_order_shipping
  rw [hfind]
  simp [hns, hni]

/-- C2: starting from an order that is neither shipped-out nor already
intercepted, a first intercept call succeeds and stores the supplied reason
and timestamp; a second call with the same id and reason succeeds as a
no-op: the registry is unchanged, the stored reason and timestamp are still
those of the first call, and the reported data carries that original
reason. -/
theorem C2_intercept_idempotent (reg : List (String × Order))
    (oid r now now' : String) (o : Order)
    (hfind : findOrder reg oid = some o)
    (hns : o.shipping_status ∉ shippedStatuses)
    (hni : o.shipping_status ≠ "Intercepted") :
    (intercept_order_shipping reg oid r now).2.success = true
    ∧ (intercept_order_shipping
        (intercept_order_shipping reg oid r now).1 oid r now').2.success = true
    ∧ (intercept_order_shipping
        (intercept_order_shipping reg oid r now).1 oid r now').1 =
        (intercept_order_shipping reg oid r now).1
    ∧ findOrder (intercept_order_shipping reg oid r now).1 oid =
        some { o with shipping_status := "Intercepted",
                      intercept_reason := some r, intercept_time := some now }
    ∧ findOrder (intercept_order_shipping
        (intercept_order_shipping reg oid r now).1 oid r now').1 oid =
        some { o with shipping_status := "Intercepted",
                      intercept_reason := some r, intercept_time := some now }
    ∧ (intercept_order_shipping
        (intercept_order_shipping reg oid r now).1 oid r now').2.data =
        some (.alreadyIntercepted "Intercepted" r) := by
  have h1 : intercept_order_shipping reg oid r now =
      (updateOrder reg oid (fun x =>
        { x with shipping_status := "Intercepted",
                 intercept_reason := some r, intercept_time := some now }),
       ⟨true, some (.intercepted oid "Intercepted" r now),
        "Order " ++ oid ++ " has been successfully intercepted"⟩) :=
    intercept_executes reg oid r now o hfind hns hni
  have hfind1 : findOrder (intercept_order_shipping reg oid r now).1 oid =
      some { o with shipping_status := "Intercepted",
                    intercept_reason := some r, intercept_time := some now } := by
    rw [h1]
    simp [findOrder_updateOrder, hfind]
  have h2 : intercept_order_shipping
      (intercept_order_shipping reg oid r now).1 oid r now' =
      ((intercept_order_shipping reg oid r now).1,
       ⟨true, some (.alreadyIntercepted "Intercepted" r),
        "Order " ++ oid ++ " is already intercepted"⟩) :=
    intercept_already_intercepted (intercept_order_shipping reg oid r now).1
      oid r now' _ hfind1 rfl
  refine ⟨by rw [h1], by rw [h2], by rw [h2], hfind1, by rw [h2]; exact hfind1, by rw [h2]⟩

/-- Witness for C2 at the mock data: order LC123456 is `Pending Shipment`;
intercepting it twice with reason "cancel order" is a success both times,
with the stored reason and timestamp those of the first call. -/
theorem C2_witness :
    findOrder MOCK_ORDERS "LC123456" =
      some ⟨"LC123456", "customer1@example.com", "Confirmed", "Pending Shipment", none, none⟩
    ∧ ("Pending Shipment" : String) ∉ shippedStatuses
    ∧ ("Pending Shipment" : String) ≠ "Intercepted"
    ∧ (intercept_order_shipping MOCK_ORDERS "LC123456" "cancel order" "t1").2.success = true
    ∧ (intercept_order_shipping
        (intercept_order_shipping MOCK_ORDERS "LC123456" "cancel order" "t1").1
        "LC123456" "cancel order" "t2").2.success = true
    ∧ (intercept_order_shipping
        (intercept_order_shipping MOCK_ORDERS "LC123456" "cancel order" "t1").1
        "LC123456" "cancel order" "t2").1 =
        (intercept_order_shipping MOCK_ORDERS "LC123456" "cancel order" "t1").1
    ∧ findOrder (intercept_order_shipping
        (intercept_order_shipping MOCK_ORDERS "LC123456" "cancel order" "t1").1
        "LC123456" "cancel order" "t2").1 "LC123456" =
        some ⟨"LC123456", "customer1@example.com", "Confirmed", "Intercepted",
          some "cancel order", some "t1"⟩
    ∧ (intercept_order_shipping
        (intercept_order_shipping MOCK_ORDERS "LC123456" "cancel order" "t1").1
        "LC123456" "cancel order" "t2").2.data =
        some (.alreadyIntercepted "Intercepted" "cancel order") := by
  have h := C2_intercept_idempotent MOCK_ORDERS "LC123456" "cancel order" "t1" "t2"
    ⟨"LC123456", "customer1@example.com", "Confirmed", "Pending Shipment", none, none⟩
    (by decide) (by decide) (by decide)
  exact ⟨by decide, by decide, by decide, h.1, h.2.1, h.2.2.1, h.2.2.2.2.1, h.2.2.2.2.2⟩

/-! ## Log-bus lemmas and claims C4, C7 -/

theorem truncateHistory_eq_drop (m : Nat) (l : List LogEvent) (hm : 1 ≤ m) :
    truncateHistory m l = l.drop (l.length - m) := by
  unfold truncateHistory pySliceLast
  have hm0 : ¬ m = 0 := by omega
  by_cases h : l.length > m
  · simp [h, hm0]
  · have h0 : l.length - m = 0 := by omega
    simp [h, h0]

/-- At capacity 0 the `[-0:]` slice keeps everything: truncation is the
identity. -/
theorem truncateHistory_zero (l : List LogEvent) : truncateHistory 0 l = l := by
  unfold truncateHistory pySliceLast
  by_cases h : l.length > 0 <;> simp [h]

/-- Truncating after appending to an already-truncated list is the same as
truncating the full list. -/
theorem drop_sub_append (x y : List LogEvent) (m : Nat) :
    (x.drop (x.length - m) ++ y).drop
      ((x.drop (x.length - m) ++ y).length - m) =
    (x ++ y).drop ((x ++ y).length - m) := by
  by_cases h : x.length ≤ m
  · have h0 : x.length - m = 0 := by omega
    simp [h0]
  · simp only [List.length_append, List.length_drop]
    rw [List.drop_append_eq_append_drop, List.drop_append_eq_append_drop,
      List.drop_drop]
    simp only [List.length_drop]
    congr 2 <;> omega

theorem run_callbacks_outcomes (e : LogEvent)
    (cbs : List (LogEvent → Except String Unit)) :
    (run_callbacks e cbs).1 = cbs.map (fun cb => cb e) := by
  induction cbs with
  | nil => rfl
  | cons cb rest ih =>
      cases h : cb e <;> simp [run_callbacks, h, ih]

theorem run_callbacks_printed_mem (e : LogEvent)
    (pre post : List (LogEvent → Except String Unit))
    (cb : LogEvent → Except String Unit) (msg : String)
    (h : cb e = .error msg) :
    ("日志回调错误: " ++ msg) ∈ (run_callbacks e (pre ++ cb :: post)).2 := by
  induction pre with
  | nil => simp [run_callbacks, h]
  | cons c cs ih =>
      cases hc : c e with
      | ok u => simpa [run_callbacks, hc] using ih
      | error m =>
          simp only [List.cons_append, run_callbacks, hc]
          exact List.mem_cons_of_mem _ ih

theorem truncateHistory_append_getLast (m : Nat) (h : List LogEvent)
    (e : LogEvent) (hm : 1 ≤ m) :
    (truncateHistory m (h ++ [e])).getLast? = some e := by
  rw [truncateHistory_eq_drop _ _ hm]
  have hk : (h ++ [e]).length - m ≤ h.length := by
    simp only [List.length_append, List.length_singleton]
    omega
  rw [List.drop_append_eq_append_drop]
  have h0 : ((h ++ [e]).length - m) - h.length = 0 := by omega
  rw [h0]
  simp

/-- C4 (amended): when some subscriber callback raises during `add_log`,
every callback — including each one registered after it — is still invoked
with the same event, the publish succeeds and the event still lands at the
end of the bounded history, and the fault is reported as a printed console
line (`print`), not as a log event. -/
theorem C4_subscriber_fault_isolated (s : LogState) (level : LogLevel)
    (message timestamp : String)
    (metadata : Option (List (String × String)))
    (pre post : List (LogEvent → Except String Unit))
    (cb : LogEvent → Except String Unit) (msg : String)
    (hcbs : s.callbacks = pre ++ cb :: post)
    (herr : cb ⟨level, message, timestamp, metadata⟩ = .error msg) :
    (add_log s level message timestamp metadata).2.1 =
      s.callbacks.map (fun c => c ⟨level, message, timestamp, metadata⟩)
    ∧ (1 ≤ s.max_logs →
        (add_log s level message timestamp metadata).1.log_history.getLast? =
          some ⟨level, message, timestamp, metadata⟩)
    ∧ ("日志回调错误: " ++ msg) ∈
        (add_log s level message timestamp metadata).2.2 := by
  refine ⟨?_, ?_, ?_⟩
  · simpa [add_log] using
      run_callbacks_outcomes ⟨level, message, timestamp, metadata⟩ s.callbacks
  · intro hm
    simpa [add_log] using
      truncateHistory_append_getLast s.max_logs s.log_history
        ⟨level, message, timestamp, metadata⟩ hm
  · have := run_callbacks_printed_mem ⟨level, message, timestamp, metadata⟩
      pre post cb msg herr
    rw [← hcbs] at this
    simpa [add_log] using this

/-- A concrete always-raising subscriber. -/
def c4BadCallback : LogEvent → Except String Unit := fun _ => .error "boom"

/-- Counterexample for C4 as stated: with one raising subscriber, the
publish appends only the published event to the history — no error-level
`LogEvent` reporting the fault is appended to the bus's history (the fault
goes to the console instead). -/
theorem C4_counterexample :
    (add_log ⟨[], [], 100, [c4BadCallback]⟩ .INFO "hello" "12:00:00" none).1.log_history =
      [⟨.INFO, "hello", "12:00:00", none⟩]
    ∧ (∀ ev ∈ (add_log ⟨[], [], 100, [c4BadCallback]⟩ .INFO "hello" "12:00:00"
        none).1.log_history, ev.level ≠ LogLevel.ERROR)
    ∧ (add_log ⟨[], [], 100, [c4BadCallback]⟩ .INFO "hello" "12:00:00" none).2.2 =
      ["日志回调错误: boom"] := by
  decide

/-- Witness for C4 at a concrete bus whose subscriber list is a raising
callback followed by an ok callback. -/
theorem C4_witness :
    ((⟨[], [], 100, [c4BadCallback, fun _ => Except.ok ()]⟩ : LogState).callbacks =
      [] ++ c4BadCallback :: [fun _ => Except.ok ()])
    ∧ (c4BadCallback ⟨.INFO, "hello", "12:00:00", none⟩ = .error "boom")
    ∧ ((add_log ⟨[], [], 100, [c4BadCallback, fun _ => Except.ok ()]⟩ .INFO
        "hello" "12:00:00" none).2.1 =
        ([c4BadCallback, fun _ => Except.ok ()] : List (LogEvent → Except String Unit)).map
          (fun c => c ⟨.INFO, "hello", "12:00:00", none⟩)
      ∧ (1 ≤ (100 : Nat) →
          (add_log ⟨[], [], 100, [c4BadCallback, fun _ => Except.ok ()]⟩ .INFO
            "hello" "12:00:00" none).1.log_history.getLast? =
            some ⟨.INFO, "hello", "12:00:00", none⟩)
      ∧ ("日志回调错误: " ++ "boom") ∈
          (add_log ⟨[], [], 100, [c4BadCallback, fun _ => Except.ok ()]⟩ .INFO
            "hello" "12:00:00" none).2.2) :=
  ⟨rfl, rfl,
    C4_subscriber_fault_isolated ⟨[], [], 100, [c4BadCallback, fun _ => Except.ok ()]⟩
      .INFO "hello" "12:00:00" none [] [fun _ => Except.ok ()] c4BadCallback "boom"
      rfl rfl⟩

/-- The history after a fold of `add_log` steps (capacity at least 1) over
a state whose history is the truncation of some log `H`. -/
theorem run_add_logs_history (inputs : List LogInput) (s : LogState)
    (H : List LogEvent) (hm : 1 ≤ s.max_logs)
    (hH : s.log_history = H.drop (H.length - s.max_logs)) :
    (run_add_logs s inputs).log_history =
      (H ++ inputs.map mkEvent).drop
        ((H ++ inputs.map mkEvent).length - s.max_logs) := by
  induction inputs generalizing s H with
  | nil => simpa [run_add_logs] using hH
  | cons i is ih =>
      have hstep : (add_log s i.1 i.2.1 i.2.2.1 i.2.2.2).1.log_history =
          (H ++ [mkEvent i]).drop ((H ++ [mkEvent i]).length - s.max_logs) := by
        have := drop_sub_append H [mkEvent i] s.max_logs
        simpa [add_log, truncateHistory_eq_drop _ _ hm, hH, mkEvent] using this
      have hrec := ih (add_log s i.1 i.2.1 i.2.2.1 i.2.2.2).1 (H ++ [mkEvent i])
        hm hstep
      simpa [run_add_logs, List.append_assoc, mkEvent] using hrec

/-- At capacity 0 nothing is ever evicted: the history accumulates every
published event. -/
theorem run_add_logs_history_zero (inputs : List LogInput) (s : LogState)
    (hm : s.max_logs = 0) :
    (run_add_logs s inputs).log_history = s.log_history ++ inputs.map mkEvent := by
  induction inputs generalizing s with
  | nil => simp [run_add_logs]
  | cons i is ih =>
      have hstep : (add_log s i.1 i.2.1 i.2.2.1 i.2.2.2).1.log_history =
          s.log_history ++ [mkEvent i] := by
        show truncateHistory s.max_logs (s.log_history ++ [mkEvent i]) =
          s.log_history ++ [mkEvent i]
        rw [hm, truncateHistory_zero]
      have hrec := ih (add_log s i.1 i.2.1 i.2.2.1 i.2.2.2).1 hm
      rw [hstep] at hrec
      simpa [run_add_logs, List.append_assoc, mkEvent] using hrec

/-- Counterexample for C7 as stated: on a bus with capacity `max_logs = 0`
and one publish (so N > max_logs), the claim asserts history is the last 0
events, i.e. empty — but Python's `history[-0:]` slice keeps everything, so
`get_logs` returns the published event. -/
theorem C7_counterexample :
    get_logs (run_add_logs ⟨[], [], 0, []⟩ [(LogLevel.INFO, "m", "t", none)]) =
      [⟨LogLevel.INFO, "m", "t", none⟩]
    ∧ get_logs (run_add_logs ⟨[], [], 0, []⟩ [(LogLevel.INFO, "m", "t", none)]) ≠
        ([] : List LogEvent) := by
  constructor
  · decide
  · decide

/-- C7 (amended): for a fresh bus of capacity `m ≥ 1`, sequential `add_log`
calls leave `get_logs` returning exactly the published events in call order
when they fit, and exactly the last `m` of them otherwise; at capacity 0
the `[-0:]` slice semantics means nothing is ever evicted and all events
are returned.  The snapshot property holds because `get_logs` yields a
value (the source returns `list(self.log_history)`, a copy). -/
theorem C7_bounded_history (m : Nat)
    (cbs : List (LogEvent → Except String Unit)) (inputs : List LogInput) :
    get_logs (run_add_logs ⟨[], [], m, cbs⟩ inputs) =
      if m = 0 then inputs.map mkEvent
      else if inputs.length ≤ m then inputs.map mkEvent
      else (inputs.map mkEvent).drop (inputs.length - m) := by
  by_cases hm : m = 0
  · subst hm
    have h := run_add_logs_history_zero inputs ⟨[], [], 0, cbs⟩ rfl
    simpa [get_logs] using h
  · have h := run_add_logs_history inputs ⟨[], [], m, cbs⟩ []
      (show 1 ≤ m by omega) (by simp)
    simp only [List.nil_append] at h
    simp only [get_logs]
    rw [h]
    by_cases hle : inputs.length ≤ m
    · have h0 : (inputs.map mkEvent).length - m = 0 := by
        simp only [List.length_map]
        omega
      simp [hle, h0, hm]
    · simp [hle, hm, List.length_map]

/-! ## Leftmost-match lemmas for `scanFirst` -/

theorem scanFirst_eq_none {α : Type} (m : List Char → Option α)
    (l : List Char) (h : ∀ i, m (l.drop i) = none) :
    scanFirst m l = none := by
  induction l with
  | nil => simpa [scanFirst] using h 0
  | cons c cs ih =>
      have h0 : m (c :: cs) = none := by simpa using h 0
      simp only [scanFirst, h0]
      exact ih (fun i => h (i + 1))

theorem scanFirst_first {α : Type} (m : List Char → Option α) (i : Nat)
    (l : List Char) (v : α)
    (hlt : ∀ j < i, m (l.drop j) = none)
    (hi : m (l.drop i) = some v) :
    scanFirst m l = some v := by
  induction i generalizing l with
  | zero =>
      cases l with
      | nil => simpa [scanFirst] using hi
      | cons c cs =>
          have h0 : m (c :: cs) = some v := by simpa using hi
          simp [scanFirst, h0]
  | succ i ih =>
      cases l with
      | nil => simpa [scanFirst, List.drop_nil] using hi
      | cons c cs =>
          have h0 : m (c :: cs) = none := by
            simpa using hlt 0 (Nat.succ_pos i)
          simp only [scanFirst, h0]
          exact ih cs (fun j hj => hlt (j + 1) (by omega)) hi

/-! ## Claims C3, C6, C8, C9 on the classifier -/

/-- The raw text of the spec's classification scenario. -/
def c3Text : List Char :=
  "Subject: Please cancel order LC123456 / Email: customer1@example.com".toList

/-- Counterexample for C3 as stated: the scenario text contains the
keyword "order", which matches the order-related set before the
order-change set is ever consulted, so the category is 订单相关
("order related"), not 订单变更 ("order change") as the claim asserts. -/
theorem C3_counterexample :
    classify_email_type c3Text = "订单相关"
    ∧ classify_email_type c3Text ≠ "订单变更" := by
  constructor
  · decide
  · decide

/-- C3 (amended): on the scenario text, classification yields category
订单相关 ("order related", by the priority order, since "order" matches the
order-related set first), intent 取消订单 ("cancel order"), and sender
customer1@example.com. -/
theorem C3_scenario_classification (p : ParsedInfo)
    (hp : p = parse_email_content c3Text) :
    p.email_type = "订单相关"
    ∧ p.intent = "取消订单"
    ∧ p.sender = some "customer1@example.com" := by
  subst hp
  refine ⟨by decide, by decide, by decide⟩

/-- Witness instantiating C3's amended theorem at the scenario text. -/
theorem C3_scenario_classification_witness :
    (parse_email_content c3Text).email_type = "订单相关"
    ∧ (parse_email_content c3Text).intent = "取消订单"
    ∧ (parse_email_content c3Text).sender = some "customer1@example.com" :=
  C3_scenario_classification (parse_email_content c3Text) rfl

/-- The spec's product-scan scenario text. -/
def c6Text : List Char := "Need 08-50-0113, 20000pcs and 22-01-1042".toList

/-- The same text without the comma between the code and the quantity. -/
def c6NoCommaText : List Char := "Need 08-50-0113 20000pcs".toList

/-- Counterexample for C6 as stated: a quantity token that follows the code
without an intervening comma is NOT attached — the source's quantity regex
requires `[,，]` between the code and the token, so the quantity defaults
to "1pcs" although a following quantity token exists. -/
theorem C6_counterexample :
    extract_products c6NoCommaText = [ProductRef.byCode "08-50-0113" "1pcs"]
    ∧ extract_products c6NoCommaText ≠
        [ProductRef.byCode "08-50-0113" "20000pcs"] := by
  constructor
  · decide
  · decide

/-- A ground text with the same code twice: both occurrences are kept, in
order, each with the (globally searched) comma-separated quantity. -/
def c6DupText : List Char := "Lines 08-50-0113 and 08-50-0113, 5pcs".toList

/-- The 2-digits–2-digits–4-digits dash shape of a product code. -/
def isCodeShape (m : List Char) : Bool :=
  match m with
  | [a, b, c, d, e, f, g, h, i, j] =>
      isPyDigit a && isPyDigit b && c = '-' && isPyDigit d && isPyDigit e &&
      f = '-' && isPyDigit g && isPyDigit h && isPyDigit i && isPyDigit j
  | _ => false

theorem codeMatchAt_shape (prev : Option Char) (l : List Char) (m : List Char)
    (h : codeMatchAt prev l = some m) : isCodeShape m = true := by
  unfold codeMatchAt at h
  split at h
  · split at h
    · cases h
      rename_i hcond
      simp only [Bool.and_eq_true] at hcond
      simp [isCodeShape, hcond]
    · cases h
  · cases h

theorem findCodesAux_shape (fuel : Nat) (prev : Option Char) (l : List Char)
    (m : List Char) (h : m ∈ findCodesAux fuel prev l) : isCodeShape m = true := by
  induction fuel generalizing prev l with
  | zero => simp [findCodesAux] at h
  | succ fuel ih =>
      cases l with
      | nil => simp [findCodesAux] at h
      | cons x xs =>
          simp only [findCodesAux] at h
          cases hc : codeMatchAt prev (x :: xs) with
          | some m' =>
              rw [hc] at h
              rcases List.mem_cons.mp h with h1 | h1
              · exact h1 ▸ codeMatchAt_shape prev (x :: xs) m' hc
              · exact ih _ _ h1
          | none =>
              rw [hc] at h
              exact ih _ _ h

/-- C6 (amended): product extraction builds exactly one reference per code
the scan finds, in scan (first-appearance) order with duplicates kept; a
code's quantity is the capture of the leftmost occurrence of
`code[,，]\s*(\d+[Kk]?pcs?)` — a quantity token is attached only when it is
separated from the code by an ASCII or full-width comma plus optional
whitespace — and defaults to "1pcs" when no position matches; every code
found has the 2-2-4 dash-digit shape.  On the scenario text this yields
{08-50-0113, 20000pcs} then {22-01-1042, 1pcs}; without the comma the
quantity defaults even though a token follows; a duplicated code yields two
references in order. -/
theorem C6_product_extraction (content : List Char) (c : List Char) :
    (findCodes content ≠ [] →
        extract_products content =
          (findCodes content).map (fun code =>
            ProductRef.byCode ⟨code⟩ ⟨quantityFor code content⟩))
    ∧ (∀ code ∈ findCodes content, isCodeShape code = true)
    ∧ ((∀ j, quantityMatchAt c (content.drop j) = none) →
        quantityFor c content = "1pcs".toList)
    ∧ (∀ i q, (∀ j < i, quantityMatchAt c (content.drop j) = none) →
        quantityMatchAt c (content.drop i) = some q →
        quantityFor c content = q)
    ∧ extract_products c6Text =
        [ProductRef.byCode "08-50-0113" "20000pcs",
         ProductRef.byCode "22-01-1042" "1pcs"]
    ∧ extract_products c6NoCommaText = [ProductRef.byCode "08-50-0113" "1pcs"]
    ∧ extract_products c6DupText =
        [ProductRef.byCode "08-50-0113" "5pcs",
         ProductRef.byCode "08-50-0113" "5pcs"] := by
  refine ⟨?_, ?_, ?_, ?_, by decide, by decide, by decide⟩
  · intro h
    cases hfc : findCodes content with
    | nil => exact absurd hfc h
    | cons a as => simp [extract_products, hfc]
  · intro code hcode
    exact findCodesAux_shape content.length none content code hcode
  · intro h
    unfold quantityFor
    rw [scanFirst_eq_none _ _ h]
  · intro i q hlt hi
    unfold quantityFor
    rw [scanFirst_first _ i _ q hlt hi]

/-- Witness for C6: on the scenario text the code list is nonempty (so the
map shape applies), and the quantity of 08-50-0113 is settled by the
leftmost comma-separated match at position 5. -/
theorem C6_witness :
    extract_products c6Text =
      (findCodes c6Text).map (fun code =>
        ProductRef.byCode ⟨code⟩ ⟨quantityFor code c6Text⟩)
    ∧ quantityFor "08-50-0113".toList c6Text = "20000pcs".toList :=
  ⟨(C6_product_extraction c6Text "08-50-0113".toList).1 (by decide),
   (C6_product_extraction c6Text "08-50-0113".toList).2.2.2.1 5 "20000pcs".toList
     (by decide) (by decide)⟩

theorem any_containsTok_eq_false {cl : List Char} {ks : List String}
    (h : ∀ k ∈ ks, containsTok k.toList cl = false) :
    hasKeyword ks cl = false := by
  rw [hasKeyword, List.any_eq_false]
  intro k hk
  simpa using h k hk

/-- C8: when the text contains none of the category keywords, none of the
intent keywords, no product code and no `Product Name` label, classification
returns the defaults: category and intent 一般咨询 ("general inquiry") and
an empty product list.  (The embedding is a total function, mirroring the
fact that classification never raises.) -/
theorem C8_no_keyword_defaults (content : List Char)
    (hcat : ∀ k ∈ all_category_keywords,
      containsTok k.toList (pyLower content) = false)
    (hint : ∀ k ∈ all_intent_keywords,
      containsTok k.toList (pyLower content) = false)
    (hcode : findCodes content = [])
    (hname : scanFirst (matchLabel "Product Name".toList true) content = none) :
    (parse_email_content content).email_type = "一般咨询"
    ∧ (parse_email_content content).intent = "一般咨询"
    ∧ (parse_email_content content).products = [] := by
  have hsub : ∀ (ks : List String), (∀ k ∈ ks, k ∈ all_category_keywords) →
      hasKeyword ks (pyLower content) = false := fun ks hks =>
    any_containsTok_eq_false (fun k hk => hcat k (hks k hk))
  have hsubI : ∀ (ks : List String), (∀ k ∈ ks, k ∈ all_intent_keywords) →
      hasKeyword ks (pyLower content) = false := fun ks hks =>
    any_containsTok_eq_false (fun k hk => hint k (hks k hk))
  refine ⟨?_, ?_, ?_⟩
  · show classify_email_type content = "一般咨询"
    simp only [classify_email_type]
    rw [hsub price_keywords (by intro k hk; simp [all_category_keywords]; tauto),
      hsub order_keywords (by intro k hk; simp [all_category_keywords]; tauto),
      hsub change_keywords (by intro k hk; simp [all_category_keywords]; tauto),
      hsub stock_keywords (by intro k hk; simp [all_category_keywords]; tauto),
      hsub ship_keywords (by intro k hk; simp [all_category_keywords]; tauto)]
    simp
  · show extract_intent content = "一般咨询"
    simp only [extract_intent]
    rw [hsubI addr_intent_keywords (by intro k hk; simp [all_intent_keywords]; tauto),
      hsubI product_intent_keywords (by intro k hk; simp [all_intent_keywords]; tauto),
      hsubI cancel_intent_keywords (by intro k hk; simp [all_intent_keywords]; tauto),
      hsubI merge_intent_keywords (by intro k hk; simp [all_intent_keywords]; tauto),
      hsubI price_intent_keywords (by intro k hk; simp [all_intent_keywords]; tauto),
      hsubI stock_intent_keywords (by intro k hk; simp [all_intent_keywords]; tauto),
      hsubI track_intent_keywords (by intro k hk; simp [all_intent_keywords]; tauto)]
    simp
  · show extract_products content = []
    have hname' : scanFirst
        (matchLabel ['P', 'r', 'o', 'd', 'u', 'c', 't', ' ', 'N', 'a', 'm', 'e'] true)
        content = none := hname
    simp only [extract_products]
    rw [hcode]
    simp [fieldExtract, hname']

/-- Witness for C8 at the keyword-free text "Hello there". -/
theorem C8_witness :
    (∀ k ∈ all_category_keywords,
      containsTok k.toList (pyLower "Hello there".toList) = false)
    ∧ (∀ k ∈ all_intent_keywords,
        containsTok k.toList (pyLower "Hello there".toList) = false)
    ∧ findCodes "Hello there".toList = []
    ∧ scanFirst (matchLabel "Product Name".toList true) "Hello there".toList = none
    ∧ ((parse_email_content "Hello there".toList).email_type = "一般咨询"
      ∧ (parse_email_content "Hello there".toList).intent = "一般咨询"
      ∧ (parse_email_content "Hello there".toList).products = []) :=
  ⟨by decide, by decide, by decide, by decide,
    C8_no_keyword_defaults "Hello there".toList (by decide) (by decide)
      (by decide) (by decide)⟩

/-- The colon-free labeled line used against C9. -/
def c9Text : List Char := "Phone 12345".toList

/-- Counterexample for C9 as stated: the text "Phone 12345" contains no
occurrence of the claimed colon-required form `Phone[:：]\s*value`
(leftmost search of that form fails), yet field extraction sets
phone = "12345", because the source's pattern makes the colon optional. -/
theorem C9_counterexample :
    (parse_email_content c9Text).phone = some "12345"
    ∧ scanFirst (matchLabel "Phone".toList false) c9Text = none := by
  constructor
  · decide
  · decide

/-- C9 (amended): field extraction is the leftmost match of the label
pattern — colon required for the subject label, optional for name, phone,
company and country, labels English-only and case-insensitive — with the
capture stripped; when several positions match, the first wins, and when
none matches, the field is unset. -/
theorem C9_field_extraction (label : List Char) (colonOptional : Bool)
    (content : List Char) :
    ((∀ i, matchLabel label colonOptional (content.drop i) = none) →
        fieldExtract label colonOptional content = none)
    ∧ (∀ i v, (∀ j < i, matchLabel label colonOptional (content.drop j) = none) →
        matchLabel label colonOptional (content.drop i) = some v →
        fieldExtract label colonOptional content = some (pyStrip v)) := by
  constructor
  · intro h
    rw [fieldExtract, scanFirst_eq_none _ _ h]
    rfl
  · intro i v hlt hi
    rw [fieldExtract, scanFirst_first _ i _ v hlt hi]
    rfl

/-- Witness for C9: on "Phone 12345" the phone pattern (colon optional)
matches at position 0 with capture "12345", so the extracted field is its
strip. -/
theorem C9_witness :
    matchLabel "Phone".toList true (c9Text.drop 0) = some "12345".toList
    ∧ fieldExtract "Phone".toList true c9Text = some (pyStrip "12345".toList) :=
  ⟨by decide,
    (C9_field_extraction "Phone".toList true c9Text).2 0 "12345".toList
      (fun j hj => absurd hj (by omega)) (by decide)⟩

/-! ## Claims C5 and C10 -/

/-- Counterexample for C5 as stated: `query_orders_by_customer` hands out
the stored order record itself (address 0 of the heap), and mutating that
record changes what a subsequent `query_order_by_id` read returns — the
returned records are not defensive copies. -/
theorem C5_counterexample :
    query_orders_by_customer initOrderHeap orderAddrs "customer1@example.com" = [0]
    ∧ (readOrderRef initOrderHeap 0).shipping_status = "Pending Shipment"
    ∧ (query_order_by_id
        (writeOrderRef initOrderHeap 0
          { readOrderRef initOrderHeap 0 with shipping_status := "Mutated" })
        orderAddrs "LC123456").2 = some 3
    ∧ (readOrderRef
        (query_order_by_id
          (writeOrderRef initOrderHeap 0
            { readOrderRef initOrderHeap 0 with shipping_status := "Mutated" })
          orderAddrs "LC123456").1 3).shipping_status = "Mutated" := by
  refine ⟨by decide, by decide, by decide, by decide⟩

/-- C5 (amended): `query_order_by_id` returns a fresh top-level copy —
mutating the record it returns leaves every pre-existing heap cell, and
hence every registry-visible order, unchanged — whereas
`query_orders_by_customer` returns the stored records themselves (its
results are registry addresses), so mutations through them are visible to
subsequent reads (as the counterexample shows). -/
theorem C5_read_copy_semantics (h : List OrderRec) (reg : List (String × Nat))
    (email oid : String) (a : Nat) (o : OrderRec)
    (ha : (query_order_by_id h reg oid).2 = some a) :
    (∀ b ∈ query_orders_by_customer h reg email, b ∈ reg.map (fun kv => kv.2))
    ∧ a = h.length
    ∧ (∀ b, b < h.length →
        readOrderRef (writeOrderRef (query_order_by_id h reg oid).1 a o) b =
          readOrderRef h b) := by
  cases hl : lookupAddr reg oid with
  | none => simp [query_order_by_id, hl] at ha
  | some a0 =>
      have h1 : (query_order_by_id h reg oid).1 = h ++ [readOrderRef h a0] := by
        simp [query_order_by_id, hl]
      have h2 : a = h.length := by
        simp [query_order_by_id, hl] at ha
        omega
      refine ⟨?_, h2, ?_⟩
      · intro b hb
        simp only [query_orders_by_customer, List.mem_map] at hb
        obtain ⟨kv, hkv, rfl⟩ := hb
        exact List.mem_map.mpr ⟨kv, List.mem_of_mem_filter hkv, rfl⟩
      · intro b hb
        rw [h1, h2]
        unfold readOrderRef writeOrderRef
        rw [List.getD_eq_get?, List.getD_eq_get?,
          List.get?_set_ne _ _ (by omega),
          List.get?_append (by simpa using hb)]
        simp [List.getD_eq_get?]

/-- Witness for C5 at the mock heap: reading LC789012 allocates the copy at
address 3, and mutating it leaves addresses 0–2 unchanged. -/
theorem C5_witness :
    (query_order_by_id initOrderHeap orderAddrs "LC789012").2 = some 3
    ∧ ((∀ b ∈ query_orders_by_customer initOrderHeap orderAddrs
          "customer2@example.com", b ∈ orderAddrs.map (fun kv => kv.2))
      ∧ 3 = initOrderHeap.length
      ∧ (∀ b, b < initOrderHeap.length →
          readOrderRef (writeOrderRef
            (query_order_by_id initOrderHeap orderAddrs "LC789012").1 3
            ⟨"LC789012", "customer2@example.com", "Mutated"⟩) b =
            readOrderRef initOrderHeap b)) :=
  ⟨by decide,
    C5_read_copy_semantics initOrderHeap orderAddrs "customer2@example.com"
      "LC789012" 3 ⟨"LC789012", "customer2@example.com", "Mutated"⟩ (by decide)⟩

/-- C10: `get_email_by_index` returns the element at the given position
exactly when `0 ≤ index < length`, and `None` for every other integer —
negative indices do not wrap around, and no exception is possible (the
function is total). -/
theorem C10_get_email_by_index_total {α : Type} (emails : List α) (i : Int) :
    get_email_by_index emails i = if i < 0 then none else emails.get? i.toNat := by
  unfold get_email_by_index
  by_cases hneg : i < 0
  · have hcond : ¬(0 ≤ i ∧ i < (emails.length : Int)) := by omega
    simp [hneg, hcond]
  · by_cases hlt : i < (emails.length : Int)
    · have hcond : 0 ≤ i ∧ i < (emails.length : Int) := by omega
      simp [hneg, hcond]
    · have hcond : ¬(0 ≤ i ∧ i < (emails.length : Int)) := by omega
      rw [if_neg hcond, if_neg hneg, eq_comm, List.get?_eq_none]
      omega

end CsAgents
